import Mathlib

/-!
Shallow embedding of the version-to-commit resolver of
`build_reconstructor.py` (the core specified in spec.md: VersionDecoder,
OffsetCodec, TagCandidateGenerator, CommitResolver), together with proofs
settling the frozen claims about it.

Modelling conventions:
* Python's arbitrary-precision integers are modelled by `Nat`; every
  encoded offset produced by `Package.version` is nonnegative (the middle
  hyphen token of the filename contains no `-`, so `int(...)` never sees a
  minus sign there).  Index arithmetic that can go negative
  (`tail - post_commit`) is done in `Int`, as in Python.
* The `git` subprocess is modelled by a `Repo` oracle mapping a full
  command line to either its stdout or the cause of a nonzero exit
  (Python's `CalledProcessError`).  The repository-path existence check and
  the `os.chdir` bookkeeping of `git_commit_from_offset`, which do not
  affect any claim, are elided: a `Repo` value stands for an existing
  working directory.
* Python exceptions are modelled by the `PyErr` sum; fallible code returns
  `Except PyErr`.
* The Python string builtins used by the source (`str.split`, `in`,
  `int(...)`, `str.splitlines`, `str.rstrip`, `os.path.basename`) are
  modelled by executable functions over `String.data` character lists, so
  every concrete run evaluates inside the kernel.
-/

/-- `BAD_MAGIC = 0xFACEFEED` (line 23 of the source). -/
def BAD_MAGIC : Nat := 0xFACEFEED

/-- `ESCAPE_CHARS = '\\;&|'` (line 24 of the source). -/
def ESCAPE_CHARS : List Char := ['\\', ';', '&', '|']

/-- The cause of a nonzero git exit status.  The Python code only ever sees
the exit status (wrapped in `CalledProcessError`), never the cause, so this
tag is carried through to let theorems speak about *why* an invocation
failed. -/
inductive GitFailKind where
  | refMissing
  | notARepo
  | corrupted
  | permissionDenied
  | other
  deriving DecidableEq

/-- The Python exceptions that the modelled code can raise. -/
inductive PyErr where
  /-- `GitError` (source line 27), raised by `git` around any
  `subprocess.CalledProcessError`. -/
  | gitError (kind : GitFailKind)
  /-- Python `ValueError` (failed unpacking, failed `int(...)`, unsafe
  command refusal). -/
  | valueError (msg : String)
  /-- Python `IndexError` (sequence index out of range). -/
  | indexError (msg : String)
  deriving DecidableEq

instance {ε α : Type} [DecidableEq ε] [DecidableEq α] : DecidableEq (Except ε α) :=
  fun a b =>
    match a, b with
    | .ok x, .ok y => decidable_of_iff (x = y) (by simp)
    | .error x, .error y => decidable_of_iff (x = y) (by simp)
    | .ok _, .error _ => isFalse fun h => Except.noConfusion h
    | .error _, .ok _ => isFalse fun h => Except.noConfusion h

/-- Outcome of running one subprocess command against a repository. -/
inductive GitResult where
  | ok (stdout : String)
  | calledProcessError (kind : GitFailKind)
  deriving DecidableEq

/-- Repository handle: an oracle giving, for each full command line, the
subprocess outcome of running it in the repository's working directory. -/
structure Repo where
  exec : List String → GitResult

/-- Python `s.split(sep)` over character lists, for a nonempty separator:
cut at each left-to-right non-overlapping occurrence of `sep`.  `fuel`
bounds the recursion (callers pass the input length plus one, which always
suffices since every step consumes at least one character); `acc` holds the
reversed current piece. -/
def splitChaOnAux (sep : List Char) : Nat → List Char → List Char → List (List Char)
  | 0, acc, _ => [acc.reverse]
  | fuel + 1, acc, s =>
    match s with
    | [] => [acc.reverse]
    | c :: cs =>
      if sep.isPrefixOf (c :: cs) then
        acc.reverse :: splitChaOnAux sep fuel [] ((c :: cs).drop sep.length)
      else
        splitChaOnAux sep fuel (c :: acc) cs

/-- Python `s.split(sep)` for a nonempty separator string. -/
def pySplit (s sep : String) : List String :=
  (splitChaOnAux sep.data (s.data.length + 1) [] s.data).map String.mk

/-- Python `pat in s` for a nonempty pattern: `s.split(pat)` has more than
one piece exactly when the pattern occurs. -/
def strContains (s pat : String) : Bool :=
  (pySplit s pat).length != 1

/-- Python `int(s)` on the hyphen-free, sign-free segments fed to it by
`Package.version`: the digits value when `s` is a nonempty run of decimal
digits, otherwise a `ValueError` (modelled as `none`).  Python's `int` also
accepts surrounding whitespace, a sign and underscores between digits; no
segment handed to it by this program's version strings of interest uses
those forms, and a minus sign cannot occur at all (the segments come from a
token already split on `-`). -/
def pyInt (s : String) : Option Nat :=
  if s.data ≠ [] ∧ s.data.all Char.isDigit then
    some (s.data.foldl (fun acc c => acc * 10 + (c.toNat - '0'.toNat)) 0)
  else none

/-- Python `str.splitlines` for `\n`-separated text (the only separator git
produces): no lines for the empty string, otherwise split on `\n` after
dropping one trailing newline. -/
def splitlines (s : String) : List String :=
  match s.data with
  | [] => []
  | l => pySplit (String.mk (if l.getLast? = some '\n' then l.dropLast else l)) "\n"

/-- Python `s.rstrip()`: drop trailing whitespace characters. -/
def pyRstrip (s : String) : String :=
  String.mk (s.data.reverse.dropWhile Char.isWhitespace).reverse

/-- Python `s.split(sep, 1)`: split at the first occurrence only. -/
def splitMax1 (s sep : String) : List String :=
  match pySplit s sep with
  | [] => []
  | [x] => [x]
  | x :: rest => [x, sep.intercalate rest]

/-- Python tuple unpacking `a, b = l` for a list of at most two elements:
`ValueError` unless the list has exactly two. -/
def unpack2 (l : List String) : Except PyErr (String × String) :=
  match l with
  | [a, b] => .ok (a, b)
  | _ => .error (.valueError "not enough values to unpack")

/-- Python sequence indexing `l[i]` with negative-index support:
a negative `i` counts from the end; out of range raises `IndexError`. -/
def pyGet (l : List String) (i : Int) : Except PyErr String :=
  let j : Int := if i < 0 then i + l.length else i
  if 0 ≤ j ∧ j < l.length then .ok (l.getD j.toNat "")
  else .error (.indexError "list index out of range")

/-- Python `os.path.basename`: the part after the final `/`. -/
def basename (p : String) : String :=
  (pySplit p "/").getLastD ""

/-- `safe_command` (source lines 313-321): a command list is safe when the
space-joined command string contains none of `ESCAPE_CHARS`. -/
def safe_command (x : List String) : Bool :=
  ESCAPE_CHARS.all fun ch => !((" ".intercalate x).data.contains ch)

/-- The task whitelist of `git` (source line 216). -/
def git_tasks : List String := ["clone", "checkout", "log", "fetch"]

/-- `git(task, *args)` (source lines 210-236): refuse unsafe command lines
and unknown tasks with `ValueError`; run the command; wrap a
`CalledProcessError` into `GitError`; return stdout otherwise. -/
def git (repo : Repo) (task : String) (args : List String) : Except PyErr String :=
  let cmd := ["git", task] ++ args
  if ¬ safe_command cmd then
    .error (.valueError "Unsafe execution attempt")
  else if task ∉ git_tasks then
    .error (.valueError "Invalid task")
  else
    match repo.exec cmd with
    | .ok out => .ok out
    | .calledProcessError k => .error (.gitError k)

/-- `filter_commit` (source lines 303-310): if the low 32 bits equal
`BAD_MAGIC`, strip them off and report the anomaly. -/
def filter_commit (x : Nat) : Nat × Bool :=
  if x &&& 0xffffffff = BAD_MAGIC then (x >>> 32, true) else (x, false)

/-- OffsetCodec's anomaly-marking encoding, as performed inline at source
line 98: `post_commit = (int(post_commit) << 32) | BAD_MAGIC`. -/
def encode_anomalous (x : Nat) : Nat :=
  (x <<< 32) ||| BAD_MAGIC

/-- The candidate tag list built at source line 266:
`[tag, 'v' + tag, '-'.join([name, tag]), name + '-' + 'v' + tag]`. -/
def tag_candidates (name tag : String) : List String :=
  [tag, "v" ++ tag, "-".intercalate [name, tag], name ++ "-" ++ "v" ++ tag]

/-- The package name derived at source line 265:
`os.path.basename(path).split('-')[0]`. -/
def repo_name (path : String) : String :=
  (pySplit (basename path) "-").headD ""

/-- `Package.version` (source lines 82-102), as a function of the package
filename.  `_, base, _ = os.path.basename(filename).split('-')` demands
exactly three hyphen tokens; the `.dev` / `dev` / plain cases follow the
source's branch order, every failed unpacking or `int(...)` being a Python
`ValueError`. -/
def version (filename : String) : Except PyErr (String × Nat) :=
  match pySplit (basename filename) "-" with
  | [_, base, _] =>
    if strContains base ".dev" then
      match pySplit base ".dev" with
      | [tag, post_commit] =>
        match pyInt post_commit with
        | some n => .ok (tag, n)
        | none => .error (.valueError "invalid literal for int")
      | _ => .error (.valueError "not enough values to unpack")
    else if strContains base "dev" then
      match pySplit base "dev" with
      | [tagRaw, post_commit] =>
        match pySplit tagRaw "." with
        | [majorS, minorS] =>
          match pyInt majorS, pyInt minorS, pyInt post_commit with
          | some major, some minor, some d =>
            .ok ("v" ++ toString major ++ "." ++ toString ((minor : Int) - 1),
                 encode_anomalous d)
          | _, _, _ => .error (.valueError "invalid literal for int")
        | _ => .error (.valueError "not enough values to unpack")
      | _ => .error (.valueError "not enough values to unpack")
    else
      .ok (base, 0)
  | _ => .error (.valueError "not enough values to unpack")

/-- The `post_commit == 0` candidate loop of `git_commit_from_offset`
(source lines 270-276): per candidate, `git('log', '--oneline', salvo)`
then `.splitlines()[0]`, breaking on the first success; a `GitError` means
try the next candidate, while any other exception (the `IndexError` from
`[0]` on an empty log, or a `ValueError` from `git`'s own checks)
propagates; `ok none` models falling through the loop with `result` still
the initial `''`. -/
def tryCandidatesFirstLine (repo : Repo) : List String → Except PyErr (Option String)
  | [] => .ok none
  | salvo :: rest =>
    match git repo "log" ["--oneline", salvo] with
    | .ok out => (pyGet (splitlines out) 0).map some
    | .error (.gitError _) => tryCandidatesFirstLine repo rest
    | .error e => .error e

/-- The `post_commit > 0` candidate loop of `git_commit_from_offset`
(source lines 289-294): per candidate, `git('log', '--oneline', salvo)`
then `.splitlines()`, breaking on the first success; a `GitError` means try
the next candidate, any other exception propagates; `ok none` models
falling through the loop with `result` still `''`. -/
def tryCandidatesLines (repo : Repo) : List String → Except PyErr (Option (List String))
  | [] => .ok none
  | salvo :: rest =>
    match git repo "log" ["--oneline", salvo] with
    | .ok out => .ok (some (splitlines out))
    | .error (.gitError _) => tryCandidatesLines repo rest
    | .error e => .error e

/-- `git_commit_from_offset(path, tag, post_commit)` (source lines
256-300).  The dead local `offset = tag + '..' + 'master'` of line 267 is
omitted; the `os.path.exists` check and `chdir` bookkeeping are elided (see
the module comment).  In the all-candidates-failed arm of the
`post_commit > 0` path, Python's `result` is still the empty *string*, so
`tail = len('') = 0` and `''[0 - post_commit]` raises `IndexError` at every
index, which the embedding returns directly. -/
def git_commit_from_offset (repo : Repo) (path tag : String) (post_commit : Nat) :
    Except PyErr String :=
  let name := repo_name path
  let tags := tag_candidates name tag
  if post_commit = 0 then do
    let res ← tryCandidatesFirstLine repo tags
    let result := res.getD ""
    let (rev, _) ← unpack2 (splitMax1 result " ")
    return rev
  else
    let (magic_post_commit, bad_magic) := filter_commit post_commit
    if bad_magic then do
      let out ← git repo "log" ["--oneline"]
      let line ← pyGet (splitlines out) (magic_post_commit : Int)
      let (rev, _) ← unpack2 (splitMax1 line " ")
      return rev
    else do
      let res ← tryCandidatesLines repo tags
      match res with
      | some lines =>
        let tail := lines.length
        let line ← pyGet lines ((tail : Int) - (post_commit : Int))
        let (rev, _) ← unpack2 (splitMax1 (pyRstrip line) " ")
        return rev
      | none =>
        .error (.indexError "string index out of range")

/-- The spec's `ResolutionError`: the error with which resolution fails
when every tag candidate was exhausted at `post_commit == 0`.  In the
source it surfaces as the Python `ValueError` raised by unpacking
`''.split(' ', 1)` (a one-element list) into `rev, message` at line 278. -/
def ResolutionError : PyErr := .valueError "not enough values to unpack"

/-! ## Helper lemmas -/

theorem encode_anomalous_low_bits (x : Nat) :
    encode_anomalous x &&& 0xffffffff = BAD_MAGIC := by
  apply Nat.eq_of_testBit_eq
  intro i
  simp only [encode_anomalous, Nat.testBit_and, Nat.testBit_or, Nat.testBit_shiftLeft]
  have hmask : (0xffffffff : Nat) = 2 ^ 32 - 1 := by norm_num
  rw [hmask, Nat.testBit_two_pow_sub_one]
  by_cases h : i < 32
  · have h32 : ¬ 32 ≤ i := by omega
    simp [h, h32]
  · have hM : Nat.testBit BAD_MAGIC i = false := by
      apply Nat.testBit_lt_two_pow
      calc BAD_MAGIC < 2 ^ 32 := by decide
        _ ≤ 2 ^ i := Nat.pow_le_pow_right (by norm_num) (by omega)
    simp [h, hM]

theorem encode_anomalous_high_bits (x : Nat) :
    encode_anomalous x >>> 32 = x := by
  apply Nat.eq_of_testBit_eq
  intro i
  simp only [encode_anomalous, Nat.testBit_shiftRight, Nat.testBit_or, Nat.testBit_shiftLeft]
  have h1 : 32 ≤ 32 + i := by omega
  have h2 : 32 + i - 32 = i := by omega
  have hM : Nat.testBit BAD_MAGIC (32 + i) = false := by
    apply Nat.testBit_lt_two_pow
    calc BAD_MAGIC < 2 ^ 32 := by decide
      _ ≤ 2 ^ (32 + i) := Nat.pow_le_pow_right (by norm_num) (by omega)
  simp [h1, h2, hM]

/-- Decoding an anomalous encoding recovers the value and sets the flag,
for every natural offset. -/
theorem filter_commit_encode_anomalous (x : Nat) :
    filter_commit (encode_anomalous x) = (x, true) := by
  unfold filter_commit
  rw [if_pos (encode_anomalous_low_bits x), encode_anomalous_high_bits]

/-- A value whose low 32 bits differ from the sentinel decodes to itself
with no anomaly. -/
theorem filter_commit_of_no_magic {x : Nat} (h : x &&& 0xffffffff ≠ BAD_MAGIC) :
    filter_commit x = (x, false) := by
  unfold filter_commit
  rw [if_neg h]

theorem except_bind_ok {α β : Type} (a : α) (f : α → Except PyErr β) :
    (Except.ok a >>= f) = f a := rfl

theorem except_bind_error {α β : Type} (e : PyErr) (f : α → Except PyErr β) :
    ((Except.error e : Except PyErr α) >>= f) = .error e := rfl

theorem tryCandidatesLines_skip {repo : Repo} {s : String} {rest : List String} {k : GitFailKind}
    (h : git repo "log" ["--oneline", s] = .error (.gitError k)) :
    tryCandidatesLines repo (s :: rest) = tryCandidatesLines repo rest := by
  conv_lhs => unfold tryCandidatesLines
  rw [h]

theorem tryCandidatesLines_found {repo : Repo} {s : String} {rest : List String} {out : String}
    (h : git repo "log" ["--oneline", s] = .ok out) :
    tryCandidatesLines repo (s :: rest) = .ok (some (splitlines out)) := by
  unfold tryCandidatesLines
  rw [h]

theorem tryCandidatesLines_exhausted {repo : Repo} :
    ∀ {l : List String},
      (∀ s ∈ l, ∃ k, git repo "log" ["--oneline", s] = .error (.gitError k)) →
      tryCandidatesLines repo l = .ok none
  | [], _ => rfl
  | s :: rest, h => by
    obtain ⟨k, hk⟩ := h s (List.mem_cons_self s rest)
    rw [tryCandidatesLines_skip hk]
    exact tryCandidatesLines_exhausted fun t ht => h t (List.mem_cons_of_mem _ ht)

theorem tryCandidatesLines_decomp {repo : Repo} {c out : String} {rest : List String} :
    ∀ {pre : List String},
      (∀ s ∈ pre, ∃ k, git repo "log" ["--oneline", s] = .error (.gitError k)) →
      git repo "log" ["--oneline", c] = .ok out →
      tryCandidatesLines repo (pre ++ c :: rest) = .ok (some (splitlines out))
  | [], _, hc => tryCandidatesLines_found hc
  | s :: pre, h, hc => by
    obtain ⟨k, hk⟩ := h s (List.mem_cons_self s pre)
    rw [List.cons_append, tryCandidatesLines_skip hk]
    exact tryCandidatesLines_decomp (fun t ht => h t (List.mem_cons_of_mem _ ht)) hc

theorem tryCandidatesLines_fatal {repo : Repo} {s : String} {rest : List String} {e : PyErr}
    (hng : ∀ k, e ≠ .gitError k)
    (h : git repo "log" ["--oneline", s] = .error e) :
    tryCandidatesLines repo (s :: rest) = .error e := by
  unfold tryCandidatesLines
  rw [h]
  cases e with
  | gitError k => exact absurd rfl (hng k)
  | valueError m => rfl
  | indexError m => rfl

theorem tryCandidatesFirstLine_skip {repo : Repo} {s : String} {rest : List String}
    {k : GitFailKind}
    (h : git repo "log" ["--oneline", s] = .error (.gitError k)) :
    tryCandidatesFirstLine repo (s :: rest) = tryCandidatesFirstLine repo rest := by
  conv_lhs => unfold tryCandidatesFirstLine
  rw [h]

theorem tryCandidatesFirstLine_found {repo : Repo} {s : String} {rest : List String}
    {out : String}
    (h : git repo "log" ["--oneline", s] = .ok out) :
    tryCandidatesFirstLine repo (s :: rest) = (pyGet (splitlines out) 0).map some := by
  unfold tryCandidatesFirstLine
  rw [h]

theorem tryCandidatesFirstLine_exhausted {repo : Repo} :
    ∀ {l : List String},
      (∀ s ∈ l, ∃ k, git repo "log" ["--oneline", s] = .error (.gitError k)) →
      tryCandidatesFirstLine repo l = .ok none
  | [], _ => rfl
  | s :: rest, h => by
    obtain ⟨k, hk⟩ := h s (List.mem_cons_self s rest)
    rw [tryCandidatesFirstLine_skip hk]
    exact tryCandidatesFirstLine_exhausted fun t ht => h t (List.mem_cons_of_mem _ ht)

theorem tryCandidatesFirstLine_decomp {repo : Repo} {c out : String} {rest : List String} :
    ∀ {pre : List String},
      (∀ s ∈ pre, ∃ k, git repo "log" ["--oneline", s] = .error (.gitError k)) →
      git repo "log" ["--oneline", c] = .ok out →
      tryCandidatesFirstLine repo (pre ++ c :: rest) = (pyGet (splitlines out) 0).map some
  | [], _, hc => tryCandidatesFirstLine_found hc
  | s :: pre, h, hc => by
    obtain ⟨k, hk⟩ := h s (List.mem_cons_self s pre)
    rw [List.cons_append, tryCandidatesFirstLine_skip hk]
    exact tryCandidatesFirstLine_decomp (fun t ht => h t (List.mem_cons_of_mem _ ht)) hc

theorem tryCandidatesFirstLine_fatal {repo : Repo} {s : String} {rest : List String} {e : PyErr}
    (hng : ∀ k, e ≠ .gitError k)
    (h : git repo "log" ["--oneline", s] = .error e) :
    tryCandidatesFirstLine repo (s :: rest) = .error e := by
  unfold tryCandidatesFirstLine
  rw [h]
  cases e with
  | gitError k => exact absurd rfl (hng k)
  | valueError m => rfl
  | indexError m => rfl

theorem pyGet_natCast {l : List String} {i : Nat} (h : i < l.length) :
    pyGet l (i : Int) = .ok (l.getD i "") := by
  unfold pyGet
  have h0 : ¬ ((i : Int) < 0) := by omega
  rw [if_neg h0]
  have hc : (0 : Int) ≤ (i : Int) ∧ (i : Int) < l.length := by omega
  rw [if_pos hc]
  have : ((i : Int)).toNat = i := by omega
  rw [this]

theorem pyGet_sub_of_le {l : List String} {pc : Nat} (h1 : 0 < pc) (h2 : pc ≤ l.length) :
    pyGet l ((l.length : Int) - pc) = .ok (l.getD (l.length - pc) "") := by
  unfold pyGet
  have h0 : ¬ ((l.length : Int) - pc < 0) := by omega
  rw [if_neg h0]
  have hc : (0 : Int) ≤ (l.length : Int) - pc ∧ (l.length : Int) - pc < l.length := by omega
  rw [if_pos hc]
  have : ((l.length : Int) - pc).toNat = l.length - pc := by omega
  rw [this]

theorem pyGet_sub_of_between {l : List String} {pc : Nat}
    (h1 : l.length < pc) (h2 : pc ≤ 2 * l.length) :
    pyGet l ((l.length : Int) - pc) = .ok (l.getD (2 * l.length - pc) "") := by
  unfold pyGet
  have h0 : (l.length : Int) - pc < 0 := by omega
  rw [if_pos h0]
  have hc : (0 : Int) ≤ (l.length : Int) - pc + l.length
      ∧ (l.length : Int) - pc + l.length < l.length := by omega
  rw [if_pos hc]
  have : ((l.length : Int) - pc + l.length).toNat = 2 * l.length - pc := by omega
  rw [this]

theorem pyGet_sub_of_gt {l : List String} {pc : Nat} (h : 2 * l.length < pc) :
    pyGet l ((l.length : Int) - pc) = .error (.indexError "list index out of range") := by
  unfold pyGet
  have h0 : (l.length : Int) - pc < 0 := by omega
  rw [if_pos h0]
  have hc : ¬ ((0 : Int) ≤ (l.length : Int) - pc + l.length
      ∧ (l.length : Int) - pc + l.length < l.length) := by omega
  rw [if_neg hc]

/-! ## Claims -/

/-- C1: with no anomaly and decoded offset strictly positive, after the
first tag candidate whose history query succeeds the resolver takes the
full newest-first commit list of length `n` reachable from that candidate
and returns the hash of the entry at index `n - offset` — the commit
`offset` positions forward from the oldest commit of that history, not
`offset` commits back from the tag (`offset = 1` gives the oldest
commit). -/
theorem c1_positive_offset_counts_from_oldest (repo : Repo) (path tag : String)
    (pc : Nat) (pre rest : List String) (c out h m : String)
    (hpc : 0 < pc)
    (hnm : pc &&& 0xffffffff ≠ BAD_MAGIC)
    (hdec : tag_candidates (repo_name path) tag = pre ++ c :: rest)
    (hpre : ∀ s ∈ pre, ∃ k, git repo "log" ["--oneline", s] = .error (.gitError k))
    (hc : git repo "log" ["--oneline", c] = .ok out)
    (hle : pc ≤ (splitlines out).length)
    (hline : splitMax1
      (pyRstrip ((splitlines out).getD ((splitlines out).length - pc) "")) " " = [h, m]) :
    git_commit_from_offset repo path tag pc = .ok h := by
  have hpc0 : pc ≠ 0 := by omega
  simp only [git_commit_from_offset, hdec, hpc0, if_false, filter_commit_of_no_magic hnm,
    tryCandidatesLines_decomp hpre hc, except_bind_ok,
    pyGet_sub_of_le hpc hle, hline, unpack2]
  rfl

/-- A fixture for `c1_positive_offset_counts_from_oldest`: the bare tag is
missing, `v4.0` has a three-commit history. -/
def repoC1 : Repo where
  exec cmd :=
    if cmd = ["git", "log", "--oneline", "v4.0"] then
      .ok "c3 third\nc2 second\nc1 first\n"
    else .calledProcessError .refMissing

theorem c1_positive_offset_counts_from_oldest_witness :
    git_commit_from_offset repoC1 "repo/astropy" "4.0" 1 = .ok "c1" :=
  c1_positive_offset_counts_from_oldest repoC1 "repo/astropy" "4.0" 1
    ["4.0"] ["astropy-4.0", "astropy-v4.0"] "v4.0"
    "c3 third\nc2 second\nc1 first\n" "c1" "first"
    (by decide) (by decide) (by decide)
    (by
      intro s hs
      rw [List.mem_singleton] at hs
      subst hs
      exact ⟨.refMissing, by decide⟩)
    (by decide) (by decide) (by decide)

/-- A fixture for the C2 theorems: no ref exists, every history query
fails. -/
def repoC2 : Repo where
  exec _ := .calledProcessError .refMissing

/-- C2 counterexample: a resolve call with no anomaly (the low 32 bits of
the offset `1` are not the sentinel), in which every one of the four tag
candidates fails its history query, does *not* fail with
`ResolutionError`: in the positive-offset path Python's `result` is still
the empty string when the loop falls through, so `''[0 - post_commit]`
raises `IndexError("string index out of range")`, a different error. -/
theorem c2_counterexample_positive_offset_index_error :
    (1 : Nat) &&& 0xffffffff ≠ BAD_MAGIC
    ∧ tag_candidates (repo_name "repo/nopkg") "9.9"
        = ["9.9", "v9.9", "nopkg-9.9", "nopkg-v9.9"]
    ∧ git repoC2 "log" ["--oneline", "9.9"] = .error (.gitError .refMissing)
    ∧ git repoC2 "log" ["--oneline", "v9.9"] = .error (.gitError .refMissing)
    ∧ git repoC2 "log" ["--oneline", "nopkg-9.9"] = .error (.gitError .refMissing)
    ∧ git repoC2 "log" ["--oneline", "nopkg-v9.9"] = .error (.gitError .refMissing)
    ∧ git_commit_from_offset repoC2 "repo/nopkg" "9.9" 1
        = .error (.indexError "string index out of range")
    ∧ (Except.error (PyErr.indexError "string index out of range")
        : Except PyErr String) ≠ .error ResolutionError := by
  decide

/-- C2 (amended): when no anomaly applies and every one of the four tag
candidates fails its history query, a resolve call with `offset = 0` fails
with `ResolutionError`, while a resolve call with positive decoded offset
fails with `IndexError("string index out of range")` instead. -/
theorem c2_exhausted_candidates_error_by_offset (repo : Repo) (path tag : String)
    (pc : Nat)
    (h : ∀ s ∈ tag_candidates (repo_name path) tag,
      ∃ k, git repo "log" ["--oneline", s] = .error (.gitError k)) :
    git_commit_from_offset repo path tag 0 = .error ResolutionError
    ∧ (0 < pc → pc &&& 0xffffffff ≠ BAD_MAGIC →
      git_commit_from_offset repo path tag pc
        = .error (.indexError "string index out of range")) := by
  constructor
  · simp only [git_commit_from_offset, tryCandidatesFirstLine_exhausted h, except_bind_ok]
    rfl
  · intro hpc hnm
    have hpc0 : pc ≠ 0 := by omega
    simp only [git_commit_from_offset, hpc0, if_false, filter_commit_of_no_magic hnm,
      tryCandidatesLines_exhausted h, except_bind_ok]
    rfl

theorem c2_exhausted_candidates_error_by_offset_witness :
    git_commit_from_offset repoC2 "repo/nopkg" "9.9" 0 = .error ResolutionError
    ∧ git_commit_from_offset repoC2 "repo/nopkg" "9.9" 1
        = .error (.indexError "string index out of range") :=
  ⟨(c2_exhausted_candidates_error_by_offset repoC2 "repo/nopkg" "9.9" 1
      (by intro s hs; fin_cases hs <;> exact ⟨.refMissing, by decide⟩)).1,
   (c2_exhausted_candidates_error_by_offset repoC2 "repo/nopkg" "9.9" 1
      (by intro s hs; fin_cases hs <;> exact ⟨.refMissing, by decide⟩)).2
     (by decide) (by decide)⟩

/-- C4: when the raw encoded offset decodes with the anomaly flag set, the
resolver queries the full history of the current branch (no tag
restriction) and returns the hash at absolute index `offset` from the
newest commit; the base tag and the tag candidates are ignored (no
hypothesis constrains any candidate query). -/
theorem c4_anomaly_absolute_index (repo : Repo) (path tag : String)
    (pc mpc : Nat) (out h m : String)
    (hmagic : filter_commit pc = (mpc, true))
    (hout : git repo "log" ["--oneline"] = .ok out)
    (hlt : mpc < (splitlines out).length)
    (hline : splitMax1 ((splitlines out).getD mpc "") " " = [h, m]) :
    git_commit_from_offset repo path tag pc = .ok h := by
  have hpc0 : pc ≠ 0 := by
    intro h0
    have h2 : filter_commit 0 = (0, false) := by decide
    rw [h0, h2] at hmagic
    exact Bool.noConfusion (congrArg Prod.snd hmagic)
  simp only [git_commit_from_offset, hpc0, if_false, hmagic, hout, except_bind_ok,
    pyGet_natCast hlt, hline, unpack2]
  rfl

/-- A fixture for `c4_anomaly_absolute_index`: a five-commit HEAD
history. -/
def repoC4 : Repo where
  exec cmd :=
    if cmd = ["git", "log", "--oneline"] then
      .ok "e5 five\ne4 four\ne3 three\ne2 two\ne1 one\n"
    else .calledProcessError .refMissing

theorem c4_anomaly_absolute_index_witness :
    git_commit_from_offset repoC4 "repo/astropy" "4.0" (encode_anomalous 2) = .ok "e3" :=
  c4_anomaly_absolute_index repoC4 "repo/astropy" "4.0" (encode_anomalous 2) 2
    "e5 five\ne4 four\ne3 three\ne2 two\ne1 one\n" "e3" "three"
    (by decide) (by decide) (by decide) (by decide)

/-- C7: with `offset = 0` the resolver walks the candidate list in order
and, at the first candidate whose history query succeeds, returns the hash
parsed from the first line of that query's result; nothing after that
candidate is ever queried (no hypothesis constrains the remaining
candidates). -/
theorem c7_zero_offset_first_line (repo : Repo) (path tag : String)
    (pre rest : List String) (c out h m : String)
    (hdec : tag_candidates (repo_name path) tag = pre ++ c :: rest)
    (hpre : ∀ s ∈ pre, ∃ k, git repo "log" ["--oneline", s] = .error (.gitError k))
    (hc : git repo "log" ["--oneline", c] = .ok out)
    (hne : splitlines out ≠ [])
    (hline : splitMax1 ((splitlines out).getD 0 "") " " = [h, m]) :
    git_commit_from_offset repo path tag 0 = .ok h := by
  have h0 : 0 < (splitlines out).length := List.length_pos.mpr hne
  have hzero : pyGet (splitlines out) 0 = .ok ((splitlines out).getD 0 "") := by
    simpa using pyGet_natCast (l := splitlines out) (i := 0) h0
  simp only [git_commit_from_offset, hdec, tryCandidatesFirstLine_decomp hpre hc,
    hzero, Except.map, except_bind_ok, Option.getD, hline, unpack2]
  rfl

/-- A fixture for `c7_zero_offset_first_line`: the bare tag is missing,
`v1.0.0` resolves. -/
def repoC7 : Repo where
  exec cmd :=
    if cmd = ["git", "log", "--oneline", "v1.0.0"] then
      .ok "t3 tagged\nt2 mid\nt1 root\n"
    else .calledProcessError .refMissing

theorem c7_zero_offset_first_line_witness :
    git_commit_from_offset repoC7 "repo/foo" "1.0.0" 0 = .ok "t3" :=
  c7_zero_offset_first_line repoC7 "repo/foo" "1.0.0"
    ["1.0.0"] ["foo-1.0.0", "foo-v1.0.0"] "v1.0.0" "t3 tagged\nt2 mid\nt1 root\n" "t3" "tagged"
    (by decide)
    (by
      intro s hs
      rw [List.mem_singleton] at hs
      subst hs
      exact ⟨.refMissing, by decide⟩)
    (by decide) (by decide) (by decide)

/-- C10: in the non-anomalous positive-offset path there is no bounds
check of `offset` against the history length `n` of the first successful
candidate: for `n < offset ≤ 2n` Python's negative indexing silently
selects the entry at position `2n - offset` from the newest commit, and an
out-of-range failure arises only once `offset > 2n`. -/
theorem c10_negative_index_wraps (repo : Repo) (path tag : String)
    (pc : Nat) (pre rest : List String) (c out : String)
    (hnm : pc &&& 0xffffffff ≠ BAD_MAGIC)
    (hdec : tag_candidates (repo_name path) tag = pre ++ c :: rest)
    (hpre : ∀ s ∈ pre, ∃ k, git repo "log" ["--oneline", s] = .error (.gitError k))
    (hc : git repo "log" ["--oneline", c] = .ok out) :
    (∀ h m, (splitlines out).length < pc → pc ≤ 2 * (splitlines out).length →
      splitMax1 (pyRstrip ((splitlines out).getD (2 * (splitlines out).length - pc) "")) " "
        = [h, m] →
      git_commit_from_offset repo path tag pc = .ok h)
    ∧ (2 * (splitlines out).length < pc →
      git_commit_from_offset repo path tag pc = .error (.indexError "list index out of range")) := by
  constructor
  · intro h m h1 h2 hline
    have hpc0 : pc ≠ 0 := by omega
    simp only [git_commit_from_offset, hdec, hpc0, if_false, filter_commit_of_no_magic hnm,
      tryCandidatesLines_decomp hpre hc, except_bind_ok,
      pyGet_sub_of_between h1 h2, hline, unpack2]
    rfl
  · intro h1
    have hpc0 : pc ≠ 0 := by omega
    simp only [git_commit_from_offset, hdec, hpc0, if_false, filter_commit_of_no_magic hnm,
      tryCandidatesLines_decomp hpre hc, except_bind_ok,
      pyGet_sub_of_gt h1, except_bind_error]
    rfl

/-- A fixture for `c10_negative_index_wraps`: the bare tag is missing,
`v2.0` has a three-commit history. -/
def repoC10 : Repo where
  exec cmd :=
    if cmd = ["git", "log", "--oneline", "v2.0"] then
      .ok "d3 top\nd2 mid\nd1 root\n"
    else .calledProcessError .refMissing

theorem c10_negative_index_wraps_witness :
    git_commit_from_offset repoC10 "repo/pkg" "2.0" 5 = .ok "d2"
    ∧ git_commit_from_offset repoC10 "repo/pkg" "2.0" 7
        = .error (.indexError "list index out of range") := by
  have hpre : ∀ s ∈ ["2.0"], ∃ k, git repoC10 "log" ["--oneline", s] = .error (.gitError k) := by
    intro s hs
    rw [List.mem_singleton] at hs
    subst hs
    exact ⟨.refMissing, by decide⟩
  constructor
  · exact (c10_negative_index_wraps repoC10 "repo/pkg" "2.0" 5
      ["2.0"] ["pkg-2.0", "pkg-v2.0"] "v2.0" "d3 top\nd2 mid\nd1 root\n"
      (by decide) (by decide) hpre (by decide)).1 "d2" "mid"
      (by decide) (by decide) (by decide)
  · exact (c10_negative_index_wraps repoC10 "repo/pkg" "2.0" 7
      ["2.0"] ["pkg-2.0", "pkg-v2.0"] "v2.0" "d3 top\nd2 mid\nd1 root\n"
      (by decide) (by decide) hpre (by decide)).2 (by decide)

/-- C3 counterexample: the first candidate's history query fails with a
non-"ref missing" cause (permission denied), yet the resolver retries the
next candidate and succeeds instead of propagating the failure. -/
def repoC3x : Repo where
  exec cmd :=
    if cmd = ["git", "log", "--oneline", "1.0"] then
      .calledProcessError .permissionDenied
    else if cmd = ["git", "log", "--oneline", "v1.0"] then
      .ok "abc first commit\n"
    else .calledProcessError .refMissing

theorem c3_counterexample_nonref_failure_retried :
    git repoC3x "log" ["--oneline", "1.0"] = .error (.gitError .permissionDenied)
    ∧ git_commit_from_offset repoC3x "repo/pkg" "1.0" 0 = .ok "abc" := by
  decide

/-- C3 (amended): during candidate iteration the resolver treats *every*
`GitError` — any failed git-log subprocess invocation, whatever its cause
(ref missing, repository corrupted, permission denied alike) — as the
try-next-candidate signal, and only a failure that is not a `GitError`
(e.g. the unsafe-command `ValueError` raised before execution) propagates
unchanged and aborts the iteration. -/
theorem c3_any_giterror_retried_others_fatal (repo : Repo) (s : String)
    (rest : List String) :
    (∀ k, git repo "log" ["--oneline", s] = .error (.gitError k) →
      tryCandidatesFirstLine repo (s :: rest) = tryCandidatesFirstLine repo rest
      ∧ tryCandidatesLines repo (s :: rest) = tryCandidatesLines repo rest)
    ∧ (∀ e, (∀ k, e ≠ .gitError k) → git repo "log" ["--oneline", s] = .error e →
      tryCandidatesFirstLine repo (s :: rest) = .error e
      ∧ tryCandidatesLines repo (s :: rest) = .error e) :=
  ⟨fun _ hk => ⟨tryCandidatesFirstLine_skip hk, tryCandidatesLines_skip hk⟩,
   fun _ hne he => ⟨tryCandidatesFirstLine_fatal hne he, tryCandidatesLines_fatal hne he⟩⟩

/-- A fixture for `c3_any_giterror_retried_others_fatal`: `bad` fails with
a corrupted-repository cause; `b;d` trips the unsafe-command check. -/
def repoC3w : Repo where
  exec cmd :=
    if cmd = ["git", "log", "--oneline", "bad"] then
      .calledProcessError .corrupted
    else .ok "zz top\n"

theorem c3_any_giterror_retried_others_fatal_witness :
    (tryCandidatesFirstLine repoC3w ["bad", "good"] = tryCandidatesFirstLine repoC3w ["good"]
      ∧ tryCandidatesLines repoC3w ["bad", "good"] = tryCandidatesLines repoC3w ["good"])
    ∧ (tryCandidatesFirstLine repoC3w ["b;d", "good"]
        = .error (.valueError "Unsafe execution attempt")
      ∧ tryCandidatesLines repoC3w ["b;d", "good"]
        = .error (.valueError "Unsafe execution attempt")) :=
  ⟨(c3_any_giterror_retried_others_fatal repoC3w "bad" ["good"]).1 .corrupted (by decide),
   (c3_any_giterror_retried_others_fatal repoC3w "b;d" ["good"]).2
     (.valueError "Unsafe execution attempt")
     (fun _ h => PyErr.noConfusion h) (by decide)⟩

/-- C5: a version string whose base token carries `dev` without `.dev` and
whose tag part is `major.minor` parses to base tag
`"v" ++ major ++ "." ++ (minor - 1)` with an encoded offset that decodes
back to the original digits with the anomaly flag set. -/
theorem c5_anomalous_dev_scheme (f p base b tagRaw digits maS miS : String)
    (ma mi d : Nat)
    (hsplit : pySplit (basename f) "-" = [p, base, b])
    (hnodot : strContains base ".dev" = false)
    (hdev : pySplit base "dev" = [tagRaw, digits])
    (htag : pySplit tagRaw "." = [maS, miS])
    (hma : pyInt maS = some ma) (hmi : pyInt miS = some mi)
    (hd : pyInt digits = some d) :
    version f = .ok ("v" ++ toString ma ++ "." ++ toString ((mi : Int) - 1),
      encode_anomalous d)
    ∧ filter_commit (encode_anomalous d) = (d, true) := by
  have hhasdev : strContains base "dev" = true := by
    unfold strContains
    rw [hdev]
    rfl
  refine ⟨?_, filter_commit_encode_anomalous d⟩
  simp only [version, hsplit, hnodot, hhasdev, hdev, htag, hma, hmi, hd]
  rfl

theorem c5_anomalous_dev_scheme_witness :
    version "astropy-4.1dev500-0" = .ok ("v4.0", encode_anomalous 500)
    ∧ filter_commit (encode_anomalous 500) = (500, true) := by
  have h := c5_anomalous_dev_scheme "astropy-4.1dev500-0" "astropy" "4.1dev500" "0"
    "4.1" "500" "4" "1" 4 1 500
    (by decide) (by decide) (by decide) (by decide) (by decide) (by decide) (by decide)
  exact (show ("v" ++ toString 4 ++ "." ++ toString ((1 : Int) - 1)) = "v4.0" by decide) ▸ h

/-- C6: decoding the anomalous encoding of any nonnegative 32-bit value
recovers the value exactly with the anomaly flag set:
`filter_commit (encode_anomalous x) = (x, true)`. -/
theorem c6_codec_roundtrip (x : Nat) (hx : x < 2 ^ 32) :
    filter_commit (encode_anomalous x) = (x, true) :=
  filter_commit_encode_anomalous x

theorem c6_codec_roundtrip_witness :
    500 < 2 ^ 32 ∧ filter_commit (encode_anomalous 500) = (500, true) :=
  ⟨by decide, c6_codec_roundtrip 500 (by decide)⟩

/-- C9: for every package name and base tag the candidate generator
produces exactly the four-element ordered list
`[tag, "v" ++ tag, name ++ "-" ++ tag, name ++ "-v" ++ tag]`; there is no
deduplication and no existence check (the list is a pure function of the
two strings, always of length four, in this fixed order). -/
theorem c9_tag_candidates_exact (name tag : String) :
    tag_candidates name tag
      = [tag, "v" ++ tag, name ++ "-" ++ tag, name ++ "-v" ++ tag] := by
  simp only [tag_candidates, String.intercalate, String.intercalate.go, List.cons.injEq,
    true_and, and_true]
  rw [String.append_assoc name "-" "v"]
  rfl

/-- The malformation condition of the amended claim C8, stated from the
spec's words (extended with the anomalous-branch shapes): the version
string fails to parse exactly when the basename does not split into three
hyphen-delimited tokens; or the `.dev` split of the base token does not
yield exactly a tag and an offset segment, or that offset segment is not a
valid integer; or, in the anomalous `dev` scheme, the `dev` split does not
yield exactly two pieces, the tag part does not split into exactly two
dot-separated components, or any of the two components or the offset
segment is not a valid integer. -/
def MalformedVersion_spec (f : String) : Prop :=
  match pySplit (basename f) "-" with
  | [_, base, _] =>
    if strContains base ".dev" then
      match pySplit base ".dev" with
      | [_, d] => pyInt d = none
      | _ => True
    else if strContains base "dev" then
      match pySplit base "dev" with
      | [tagRaw, d] =>
        match pySplit tagRaw "." with
        | [ma, mi] => pyInt ma = none ∨ pyInt mi = none ∨ pyInt d = none
        | _ => True
      | _ => True
    else False
  | _ => True

/-- C8 counterexample: `"pkg-3dev5-0"` splits into the three hyphen tokens
`["pkg", "3dev5", "0"]` and its offset segment `"5"` is a valid integer,
yet parsing fails (with a `ValueError`, the spec's
`MalformedVersionError`): the anomalous branch's tag part `"3"` has no
`major.minor` shape — a failure mode the claim's "exactly when" omits. -/
theorem c8_counterexample_dev_tag_shape :
    version "pkg-3dev5-0" = .error (.valueError "not enough values to unpack")
    ∧ pySplit (basename "pkg-3dev5-0") "-" = ["pkg", "3dev5", "0"]
    ∧ pySplit "3dev5" "dev" = ["3", "5"]
    ∧ pyInt "5" = some 5 := by
  decide

/-- C8 (amended): `Package.version` fails — always with a `ValueError`,
the spec's `MalformedVersionError` — exactly when `MalformedVersion_spec`
holds: not three hyphen tokens, or a malformed `.dev`/`dev` base token as
detailed there. -/
theorem c8_malformed_version_iff (f : String) :
    (∃ msg, version f = .error (.valueError msg)) ↔ MalformedVersion_spec f := by
  unfold version MalformedVersion_spec
  rcases h1 : pySplit (basename f) "-" with _ | ⟨p, _ | ⟨base, _ | ⟨b, _ | ⟨x, l⟩⟩⟩⟩ <;>
      simp only [h1] <;> try simp
  by_cases hdot : strContains base ".dev"
  · simp only [hdot, if_true]
    rcases h2 : pySplit base ".dev" with _ | ⟨t, _ | ⟨d, _ | ⟨y, l2⟩⟩⟩ <;>
        simp only [h2] <;> try simp
    rcases h3 : pyInt d with _ | n <;> simp [h3]
  · simp only [Bool.not_eq_true] at hdot
    simp only [hdot, Bool.false_eq_true, if_false]
    by_cases hdev : strContains base "dev"
    · simp only [hdev, if_true]
      rcases h2 : pySplit base "dev" with _ | ⟨t, _ | ⟨d, _ | ⟨y, l2⟩⟩⟩ <;>
          simp only [h2] <;> try simp
      rcases h3 : pySplit t "." with _ | ⟨ma, _ | ⟨mi, _ | ⟨z, l3⟩⟩⟩ <;>
          simp only [h3] <;> try simp
      rcases h4 : pyInt ma with _ | a <;> rcases h5 : pyInt mi with _ | a' <;>
          rcases h6 : pyInt d with _ | a'' <;> simp [h4, h5, h6]
    · simp only [Bool.not_eq_true] at hdev
      simp [hdev]
